import Mathlib

/-!
Shallow embedding of the rule module of robotframework-lint
(source file: rflint/rules/suiteRules.py).

Strings are modelled as lists of characters (`Str`), documents as the
`Suite` structure mirroring the attribute surface the rules read
(`path`, `name`, `tables`, `keywords`, `testcases`).  Each rule class
of the source becomes a Lean function named `<RuleClass>_apply`
translating the body of its `apply` method.  Rules that index into a
row (`row[0]`, `row[1]`) are embedded in `Except Unit`, where
`.error ()` models the Python `IndexError` raised on an out-of-range
index; rules that never index return a plain list of violations.
-/

abbrev Str := List Char

/-- Character-list view of a string literal. -/
def lit (s : String) : Str := s.data

/-- The single-quote character, kept out of string literals. -/
def quoteCh : Char := Char.ofNat 39

/-- Python `str.lower()` restricted to the ASCII data the rules compare. -/
def pyLower (s : Str) : Str := s.map Char.toLower

/-- Python `str.replace(t, "")` for a one-character pattern `t`. -/
def pyDropChar (t : Char) : Str → Str
  | [] => []
  | c :: cs => if c = t then pyDropChar t cs else c :: pyDropChar t cs

/-- Source `normalize_name`: `string.replace(" ", "").replace("_", "").lower()`. -/
def normalize_name (s : Str) : Str := pyLower (pyDropChar '_' (pyDropChar ' ' s))

/-- Does `hay` start with `needle`? -/
def strStartsWith : Str → Str → Bool
  | [], _ => true
  | _ :: _, [] => false
  | n :: ns, h :: hs => n == h && strStartsWith ns hs

/-- Python `needle in hay` for strings: substring containment. -/
def strContains (needle : Str) : Str → Bool
  | [] => strStartsWith needle []
  | h :: hs => strStartsWith needle (h :: hs) || strContains needle hs

/-- Rule severities (`ERROR`, `WARNING` in rflint.common). -/
inductive Severity
  | error
  | warning
deriving DecidableEq

/-- A row of a table: ordered cells plus its source line number. -/
structure Row where
  cells : List Str
  linenumber : Nat
deriving DecidableEq

/-- A table of the parsed document.  `isSetting` models
`isinstance(table, SettingTable)`; `name` is the raw header text. -/
structure Table where
  isSetting : Bool
  name : Str
  linenumber : Nat
  rows : List Row
deriving DecidableEq

/-- A keyword or test-case definition: display name and line number. -/
structure NamedItem where
  name : Str
  linenumber : Nat
deriving DecidableEq

/-- The parsed document handed to every rule. -/
structure Suite where
  path : Str
  name : Str
  tables : List Table
  keywords : List NamedItem
  testcases : List NamedItem
deriving DecidableEq

/-- A reported finding: severity, message and anchor line. -/
structure Violation where
  severity : Severity
  message : Str
  linenumber : Nat
deriving DecidableEq

/-! ### RequiredRobotFileSuffxAndFolder -/

/-- Rule `RequiredRobotFileSuffxAndFolder.apply`: two independent
substring checks on `suite.path`, each reported at line 0. -/
def RequiredRobotFileSuffxAndFolder_apply (s : Suite) : List Violation :=
  (if strContains (lit ".robot") s.path then [] else
    [⟨.error, lit "Required file suffix is \".robot\"", 0⟩]) ++
  (if strContains (lit "5GC") s.path then [] else
    [⟨.error, lit "Required Parent folder is \"5GC*\"", 0⟩])

/-! ### RequirdNoCurdirInImporting -/

/-- The reserved current-directory placeholder literal. -/
def curdirToken : Str := lit "$\x7bCURDIR\x7d"

/-- Message of the no-curdir rule. -/
def curdirMsg : Str := lit "Don" ++ [quoteCh] ++ lit "t use " ++ curdirToken

/-- Body of the inner loop of `RequirdNoCurdirInImporting.apply` on one
row: `row[0]` and `row[1]` may raise `IndexError` (`.error ()`). -/
def checkRowCurdir (r : Row) : Except Unit (List Violation) :=
  match r.cells with
  | [] => .error ()
  | c0 :: rest =>
    if c0 = lit "Resource" then
      match rest with
      | [] => .error ()
      | c1 :: _ =>
        if strContains curdirToken c1 then
          .ok [⟨.error, curdirMsg, r.linenumber⟩]
        else
          .ok []
    else
      .ok []

/-- Run a per-row check over rows in order, propagating the first
`IndexError` and concatenating the findings. -/
def exceptRows (f : Row → Except Unit (List Violation)) :
    List Row → Except Unit (List Violation)
  | [] => .ok []
  | r :: rs => do
    let v ← f r
    let vs ← exceptRows f rs
    return v ++ vs

/-- Outer loop of `RequirdNoCurdirInImporting.apply` over the tables. -/
def curdirTables : List Table → Except Unit (List Violation)
  | [] => .ok []
  | t :: ts =>
    if t.isSetting then do
      let v ← exceptRows checkRowCurdir t.rows
      let vs ← curdirTables ts
      return v ++ vs
    else
      curdirTables ts

/-- Rule `RequirdNoCurdirInImporting.apply`. -/
def RequirdNoCurdirInImporting_apply (s : Suite) : Except Unit (List Violation) :=
  curdirTables s.tables

/-! ### RequiredAutherInfo -/

/-- Author-indicating tokens of `RequiredAutherInfo.apply`. -/
def authorTokens : List Str := [lit "author", lit "name", lit "modified"]

/-- Contact-indicating tokens of `RequiredAutherInfo.apply`. -/
def contactTokens : List Str := [lit "contact", lit "mail", lit "team"]

/-- `any(name in str.lower() for name in tokens)` for one cell. -/
def cellHasAny (tokens : List Str) (c : Str) : Bool :=
  tokens.any (fun t => strContains t (pyLower c))

/-- Final value of the author/contact flag after scanning all rows:
the flag starts `False` and is set whenever a cell matches, so its
final value is an existence check over all cells. -/
def rowsHaveToken (tokens : List Str) (rows : List Row) : Bool :=
  rows.any (fun r => r.cells.any (cellHasAny tokens))

/-- Message of the author-missing finding. -/
def authorMissingMsg : Str := lit "Author name is needed"

/-- Message of the contact-missing finding. -/
def contactMissingMsg : Str := lit "Contact list is needed"

/-- Per-settings-table block of `RequiredAutherInfo.apply`: flags are
re-initialised for each settings table and the two reports are issued
(at line 1) right after that table is scanned. -/
def authorTableCheck (t : Table) : List Violation :=
  (if rowsHaveToken authorTokens t.rows then [] else
    [⟨.error, authorMissingMsg, 1⟩]) ++
  (if rowsHaveToken contactTokens t.rows then [] else
    [⟨.error, contactMissingMsg, 1⟩])

/-- Rule `RequiredAutherInfo.apply`. -/
def RequiredAutherInfo_apply (s : Suite) : List Violation :=
  (s.tables.filter (fun t => t.isSetting)).flatMap authorTableCheck

/-! ### PeriodInSuiteName -/

/-- Message of the period-in-name rule, built around the quote marks. -/
def periodMsg (n : Str) : Str :=
  [quoteCh, '.', quoteCh] ++ lit " in suite name " ++ [quoteCh] ++ n ++ [quoteCh]

/-- Rule `PeriodInSuiteName.apply`. -/
def PeriodInSuiteName_apply (s : Suite) : List Violation :=
  if strContains (lit ".") s.name then [⟨.warning, periodMsg s.name, 0⟩] else []

/-! ### InvalidTable -/

/-- Finite regular expressions: the pattern of `InvalidTable` uses only
literals, concatenation, alternation and an optional group. -/
inductive RE
  | eps
  | chr (c : Char)
  | seq (a b : RE)
  | alt (a b : RE)
  | opt (a : RE)

/-- CPS matcher: `REfull r s k` holds when some preceding part of `s`
matches `r` (characters compared case-insensitively, modelling
`re.IGNORECASE`) and the continuation `k` accepts the rest. -/
def REfull : RE → Str → (Str → Bool) → Bool
  | .eps, s, k => k s
  | .chr _, [], _ => false
  | .chr c, x :: xs, k => Char.toLower x == c && k xs
  | .seq a b, s, k => REfull a s (fun s2 => REfull b s2 k)
  | .alt a b, s, k => REfull a s k || REfull b s k
  | .opt a, s, k => k s || REfull a s k

/-- Literal regular expression for a word. -/
def litRE (s : Str) : RE := s.foldr (fun c r => .seq (.chr c) r) .eps

/-- The anchored header pattern of `InvalidTable.apply`:
`^(settings?|metadata|(test )?cases?|(user )?keywords?|variables?)$`. -/
def tablePattern : RE :=
  .alt (.seq (litRE (lit "setting")) (.opt (.chr 's')))
  (.alt (litRE (lit "metadata"))
  (.alt (.seq (.opt (litRE (lit "test "))) (.seq (litRE (lit "case")) (.opt (.chr 's'))))
  (.alt (.seq (.opt (litRE (lit "user "))) (.seq (litRE (lit "keyword")) (.opt (.chr 's'))))
        (.seq (litRE (lit "variable")) (.opt (.chr 's'))))))

/-- Full-string match of a finite regular expression. -/
def reMatches (r : RE) (s : Str) : Bool := REfull r s (fun rest => rest.isEmpty)

/-- Message of the unknown-table rule. -/
def invalidTableMsg (n : Str) : Str :=
  lit "Unknown table name " ++ [quoteCh] ++ n ++ [quoteCh]

/-- Rule `InvalidTable.apply`. -/
def InvalidTable_apply (s : Suite) : List Violation :=
  s.tables.flatMap (fun t =>
    if reMatches tablePattern t.name then [] else
      [⟨.warning, invalidTableMsg t.name, t.linenumber⟩])

/-! ### DuplicateKeywordNames and DuplicateTestNames -/

/-- Message of a duplicate-keyword finding. -/
def dupKwMsg (n : Str) : Str :=
  lit "Duplicate keyword name " ++ [quoteCh] ++ n ++ [quoteCh]

/-- Message of a duplicate-test-case finding. -/
def dupTcMsg (n : Str) : Str :=
  lit "Duplicate testcase name " ++ [quoteCh] ++ n ++ [quoteCh]

/-- The shared loop of the two duplicate rules: walk the items keeping
the `cache` of normalized names seen so far; report iff the current
normalized name is already in the cache; always append it afterwards. -/
def dupWalk (sev : Severity) (msg : Str → Str) (cache : List Str) :
    List NamedItem → List Violation
  | [] => []
  | k :: ks =>
    (if normalize_name k.name ∈ cache then
        [⟨sev, msg k.name, k.linenumber⟩]
      else []) ++
    dupWalk sev msg (cache ++ [normalize_name k.name]) ks

/-- Rule `DuplicateKeywordNames.apply`: fresh cache, walk `suite.keywords`. -/
def DuplicateKeywordNames_apply (s : Suite) : List Violation :=
  dupWalk .error dupKwMsg [] s.keywords

/-- Rule `DuplicateTestNames.apply`: fresh cache, walk `suite.testcases`. -/
def DuplicateTestNames_apply (s : Suite) : List Violation :=
  dupWalk .error dupTcMsg [] s.testcases

/-! ### RequireSuiteDocumentation and TooManyTestCases -/

/-- Inner loop shared shape: scan the rows of one settings table for a
row whose first cell, lowercased, equals `target`; `row[0]` raises on
an empty row. -/
def findFirstCellLower (target : Str) : List Row → Except Unit Bool
  | [] => .ok false
  | r :: rs =>
    match r.cells with
    | [] => .error ()
    | c :: _ => if pyLower c = target then .ok true else findFirstCellLower target rs

/-- Scan every settings table, in order, for a row whose first cell
lowercased equals `target`; stops at the first hit. -/
def scanSettingFirstCells (target : Str) : List Table → Except Unit Bool
  | [] => .ok false
  | t :: ts =>
    if t.isSetting then
      match findFirstCellLower target t.rows with
      | .error e => .error e
      | .ok true => .ok true
      | .ok false => scanSettingFirstCells target ts
    else
      scanSettingFirstCells target ts

/-- Fallback line search of `RequireSuiteDocumentation.apply`:
`linenum = 1`, replaced by `table.linenumber + 1` at the first
settings table. -/
def firstSettingLinenum : List Table → Nat
  | [] => 1
  | t :: ts => if t.isSetting then t.linenumber + 1 else firstSettingLinenum ts

/-- Rule `RequireSuiteDocumentation.apply`. -/
def RequireSuiteDocumentation_apply (s : Suite) : Except Unit (List Violation) :=
  match scanSettingFirstCells (lit "documentation") s.tables with
  | .error e => .error e
  | .ok true => .ok []
  | .ok false => .ok [⟨.warning, lit "No suite documentation", firstSettingLinenum s.tables⟩]

/-- Decimal rendering of a count, as used by `%s` formatting. -/
def natStr (n : Nat) : Str := (toString n).data

/-- Message of the too-many-test-cases rule:
`"Too many test cases (%s > %s) in test suite" % (len, max)`. -/
def tooManyMsg (count maxAllowed : Nat) : Str :=
  lit "Too many test cases (" ++ natStr count ++ lit " > " ++ natStr maxAllowed ++
    lit ") in test suite"

/-- Rule `TooManyTestCases.apply`, with the configurable threshold
`max_allowed` passed explicitly (default 10, see `TooManyTestCases_default`). -/
def TooManyTestCases_apply (maxAllowed : Nat) (s : Suite) : Except Unit (List Violation) :=
  match scanSettingFirstCells (lit "test template") s.tables with
  | .error e => .error e
  | .ok true => .ok []
  | .ok false =>
    if h : maxAllowed < s.testcases.length then
      .ok [⟨.warning, tooManyMsg s.testcases.length maxAllowed,
            (s.testcases.get ⟨maxAllowed, h⟩).linenumber⟩]
    else
      .ok []

/-- The class-level default of `TooManyTestCases.max_allowed`. -/
def TooManyTestCases_default : Nat := 10

/-! ### Whole rule set -/

/-- One pass of the whole suite-rule battery over one document, in the
order the rule classes appear in the source file.  Rules that cannot
raise are wrapped in `.ok`. -/
def runAllRules (maxAllowed : Nat) (s : Suite) : List (Except Unit (List Violation)) :=
  [ .ok (RequiredRobotFileSuffxAndFolder_apply s),
    RequirdNoCurdirInImporting_apply s,
    .ok (RequiredAutherInfo_apply s),
    .ok (PeriodInSuiteName_apply s),
    .ok (InvalidTable_apply s),
    .ok (DuplicateKeywordNames_apply s),
    .ok (DuplicateTestNames_apply s),
    RequireSuiteDocumentation_apply s,
    TooManyTestCases_apply maxAllowed s ]

/-- State a run could in principle carry from one pass to the next:
the seen-sets of the two duplicate rules.  In the source these are the
local variable `cache` of each `apply`, created empty on entry and
discarded on return. -/
structure EngineState where
  kwCache : List Str
  tcCache : List Str
deriving DecidableEq

/-- Final value of a duplicate-rule cache after one walk: every
normalized name is appended unconditionally. -/
def dupFinalCache (cache : List Str) (items : List NamedItem) : List Str :=
  cache ++ items.map (fun k => normalize_name k.name)

/-- A pass of the battery threaded through the engine state.  Each
`apply` initialises its own seen-set to `[]` (the assignment
`cache = []` at the top of the method), so the incoming state is never
read; the outgoing state snapshots the caches as they stand when the
local variables die. -/
def runAllRulesS (maxAllowed : Nat) (_st : EngineState) (s : Suite) :
    List (Except Unit (List Violation)) × EngineState :=
  (runAllRules maxAllowed s,
   ⟨dupFinalCache [] s.keywords, dupFinalCache [] s.testcases⟩)

/-! ### Specification-side definitions

The following definitions restate, in the words of the specification,
what the rules are claimed to compute.  They are compared with the
source translations above by the claim theorems. -/

/-- Pair every item of a walk with the list of items before it. -/
def withEarlier (pre : List NamedItem) : List NamedItem → List (List NamedItem × NamedItem)
  | [] => []
  | k :: ks => (pre, k) :: withEarlier (pre ++ [k]) ks

/-- Claimed behaviour of the duplicate rules: an entry is reported, at
its own line, exactly when its normalized name occurred among the
normalized names of earlier entries of the same walk. -/
def dupReportSpec (sev : Severity) (msg : Str → Str) (items : List NamedItem) : List Violation :=
  (withEarlier [] items).flatMap (fun p =>
    if normalize_name p.2.name ∈ p.1.map (fun j => normalize_name j.name) then
      [⟨sev, msg p.2.name, p.2.linenumber⟩]
    else [])

/-- The finite language of a star-free regular expression, in
left-to-right alternation order. -/
def lang : RE → List Str
  | .eps => [[]]
  | .chr c => [[c]]
  | .seq a b => (lang a).flatMap (fun x => (lang b).map (fun y => x ++ y))
  | .alt a b => lang a ++ lang b
  | .opt a => [] :: lang a

/-- The recognized header forms listed by the specification. -/
def recognizedHeaders : List Str :=
  [lit "setting", lit "settings", lit "metadata",
   lit "case", lit "cases", lit "test case", lit "test cases",
   lit "keyword", lit "keywords", lit "user keyword", lit "user keywords",
   lit "variable", lit "variables"]

/-- Claimed per-row behaviour of the no-curdir rule: a finding at the
row line exactly when the first cell is `Resource` (case-sensitive)
and the second cell contains the placeholder. -/
def curdirRowSpec (r : Row) : Option Violation :=
  match r.cells with
  | c0 :: c1 :: _ =>
    if c0 = lit "Resource" ∧ strContains curdirToken c1 = true then
      some ⟨.error, curdirMsg, r.linenumber⟩
    else none
  | _ => none

/-- Claimed per-settings-table behaviour of the author/contact rule:
one author-missing finding when no cell of the table contains an
author token, one contact-missing finding when no cell contains a
contact token, both at line 1. -/
def authorContactTableSpec (t : Table) : List Violation :=
  (if ∃ r ∈ t.rows, ∃ c ∈ r.cells, ∃ tok ∈ authorTokens, strContains tok (pyLower c) = true
    then [] else [⟨.error, authorMissingMsg, 1⟩]) ++
  (if ∃ r ∈ t.rows, ∃ c ∈ r.cells, ∃ tok ∈ contactTokens, strContains tok (pyLower c) = true
    then [] else [⟨.error, contactMissingMsg, 1⟩])

/-- A settings table of `t` lacks every token of `tokens` in every cell. -/
def tableLacks (tokens : List Str) (t : Table) : Bool :=
  decide (¬ ∃ r ∈ t.rows, ∃ c ∈ r.cells, ∃ tok ∈ tokens, strContains tok (pyLower c) = true)

/-- Some settings-table row has `target` (case-insensitively) as its
first cell. -/
def hasFirstCellRow (target : Str) (s : Suite) : Prop :=
  ∃ t ∈ s.tables, t.isSetting = true ∧
    ∃ r ∈ t.rows, r.cells.head?.map pyLower = some target

instance hasFirstCellRowDec (target : Str) (s : Suite) :
    Decidable (hasFirstCellRow target s) := by
  unfold hasFirstCellRow
  infer_instance

/-! ### Concrete example documents -/

/-- Two settings tables: the first carries author and contact tokens,
the second (empty) carries none. -/
def authorCexDoc : Suite :=
  ⟨[], [], [⟨true, lit "Settings", 1, [⟨[lit "Author contact team"], 2⟩]⟩,
            ⟨true, lit "Settings", 10, []⟩], [], []⟩

/-- Eleven test cases at lines 100..110, no settings table. -/
def tooManyWitnessDoc : Suite :=
  ⟨[], [], [], [], (List.range 11).map (fun i => ⟨natStr i, 100 + i⟩)⟩

/-- One settings table at line 5 whose only row imports a library. -/
def docWitnessDoc : Suite :=
  ⟨[], [], [⟨true, lit "Settings", 5, [⟨[lit "Library", lit "Collections"], 6⟩]⟩], [], []⟩

/-- Settings rows: a curdir-based import, a lowercase `resource` row
with the placeholder, and a clean relative import. -/
def curdirWitnessDoc : Suite :=
  ⟨[], [], [⟨true, lit "Settings", 1,
      [⟨[lit "Resource", lit "a$\x7bCURDIR\x7d/lib.robot"], 2⟩,
       ⟨[lit "resource", lit "$\x7bCURDIR\x7d/x.robot"], 3⟩,
       ⟨[lit "Resource", lit "../lib.robot"], 4⟩]⟩], [], []⟩

/-- A settings table whose only row is the single cell `Resource`. -/
def resourceOnlyDoc : Suite :=
  ⟨[], [], [⟨true, lit "Settings", 1, [⟨[lit "Resource"], 2⟩]⟩], [], []⟩

/-- A document whose only table is a keyword table: no settings table. -/
def noSettingsDoc : Suite :=
  ⟨[], [], [⟨false, lit "Keywords", 1, []⟩], [], []⟩

/-! ### Helper lemmas -/

theorem pyDropChar_eq_filter (t : Char) (s : Str) :
    pyDropChar t s = s.filter (fun c => !(c == t)) := by
  induction s with
  | nil => rfl
  | cons c cs ih => by_cases h : c = t <;> simp [pyDropChar, h, ih]

theorem normalize_name_eq (s : Str) :
    normalize_name s = (s.filter (fun c => !(c == ' ' || c == '_'))).map Char.toLower := by
  show pyLower _ = _
  rw [pyDropChar_eq_filter, pyDropChar_eq_filter, List.filter_filter]
  unfold pyLower
  congr 1
  refine List.filter_congr ?_
  intro c _
  cases hc : (c == ' ') <;> cases hd : (c == '_') <;> simp [hc, hd]

theorem dupWalk_eq_spec (sev : Severity) (msg : Str → Str) :
    ∀ (items pre : List NamedItem),
      dupWalk sev msg (pre.map (fun j => normalize_name j.name)) items
        = (withEarlier pre items).flatMap (fun p =>
            if normalize_name p.2.name ∈ p.1.map (fun j => normalize_name j.name) then
              [⟨sev, msg p.2.name, p.2.linenumber⟩]
            else []) := by
  intro items
  induction items with
  | nil => intro pre; rfl
  | cons k ks ih =>
    intro pre
    simp only [dupWalk, withEarlier, List.flatMap_cons]
    congr 1
    rw [show pre.map (fun j => normalize_name j.name) ++ [normalize_name k.name]
          = (pre ++ [k]).map (fun j => normalize_name j.name) by simp]
    exact ih (pre ++ [k])

/-! ### Claim theorems -/

/-- Claim C7: `normalize_name` removes every space and underscore and
lowercases the remaining characters, and nothing else; hence the three
sample spellings of the same name normalize identically. -/
theorem C7_normalize_name :
    (∀ x : Str, normalize_name x
        = (x.filter (fun c => !(c == ' ' || c == '_'))).map Char.toLower) ∧
    normalize_name (lit "Smoke Test") = normalize_name (lit "smoke_test") ∧
    normalize_name (lit "smoke_test") = normalize_name (lit "SmokeTest") :=
  ⟨normalize_name_eq, by decide, by decide⟩

/-- Claim C1: both duplicate rules walk their item sequence in order
with a fresh seen-set and report, at the line of the later entry,
exactly the entries whose normalized name occurred earlier in the same
walk; on the keywords Foo, foo underscore bar, FOO exactly one
violation is produced, at the line of the third entry. -/
theorem C1_duplicate_rules (s : Suite) (p n : Str) (l1 l2 l3 : Nat) :
    DuplicateKeywordNames_apply s = dupReportSpec .error dupKwMsg s.keywords ∧
    DuplicateTestNames_apply s = dupReportSpec .error dupTcMsg s.testcases ∧
    DuplicateKeywordNames_apply
        ⟨p, n, [], [⟨lit "Foo", l1⟩, ⟨lit "foo_bar", l2⟩, ⟨lit "FOO", l3⟩], []⟩
      = [⟨.error, dupKwMsg (lit "FOO"), l3⟩] := by
  refine ⟨?_, ?_, by rfl⟩
  · simpa [dupReportSpec, DuplicateKeywordNames_apply]
      using dupWalk_eq_spec .error dupKwMsg s.keywords []
  · simpa [dupReportSpec, DuplicateTestNames_apply]
      using dupWalk_eq_spec .error dupTcMsg s.testcases []

/-- Claim C8: a pass of the full rule battery is a function of the
document and the configuration alone: the outcome does not depend on
any state carried in from an earlier pass, and running the battery a
second time right after a first pass yields the identical outcome. -/
theorem C8_deterministic_runs (m : Nat) (s : Suite) (st1 st2 : EngineState) :
    (runAllRulesS m st1 s).1 = (runAllRulesS m st2 s).1 ∧
    (runAllRulesS m (runAllRulesS m st1 s).2 s).1 = (runAllRulesS m st1 s).1 :=
  ⟨rfl, rfl⟩

theorem rowsHaveToken_iff (tokens : List Str) (rows : List Row) :
    rowsHaveToken tokens rows = true ↔
      ∃ r ∈ rows, ∃ c ∈ r.cells, ∃ tok ∈ tokens, strContains tok (pyLower c) = true := by
  simp [rowsHaveToken, cellHasAny, List.any_eq_true]

theorem authorTableCheck_eq (t : Table) : authorTableCheck t = authorContactTableSpec t := by
  unfold authorTableCheck authorContactTableSpec
  congr 1
  · by_cases h : ∃ r ∈ t.rows, ∃ c ∈ r.cells, ∃ tok ∈ authorTokens,
        strContains tok (pyLower c) = true
    · rw [if_pos ((rowsHaveToken_iff _ _).mpr h), if_pos h]
    · rw [if_neg (fun hb => h ((rowsHaveToken_iff _ _).mp hb)), if_neg h]
  · by_cases h : ∃ r ∈ t.rows, ∃ c ∈ r.cells, ∃ tok ∈ contactTokens,
        strContains tok (pyLower c) = true
    · rw [if_pos ((rowsHaveToken_iff _ _).mpr h), if_pos h]
    · rw [if_neg (fun hb => h ((rowsHaveToken_iff _ _).mp hb)), if_neg h]

/-- Claim C3 counterexample: in `authorCexDoc` some settings-table cell
contains an author token and some cell contains a contact token, so
under the claimed document-wide flags no finding would be reported;
the rule nevertheless reports both findings (for the second, empty
settings table), refuting the claimed at-most-one-per-document,
flag-per-document reading. -/
theorem C3_counterexample :
    (∃ t ∈ authorCexDoc.tables, t.isSetting = true ∧
        ∃ r ∈ t.rows, ∃ c ∈ r.cells, ∃ tok ∈ authorTokens,
          strContains tok (pyLower c) = true) ∧
    (∃ t ∈ authorCexDoc.tables, t.isSetting = true ∧
        ∃ r ∈ t.rows, ∃ c ∈ r.cells, ∃ tok ∈ contactTokens,
          strContains tok (pyLower c) = true) ∧
    RequiredAutherInfo_apply authorCexDoc
      = [⟨.error, authorMissingMsg, 1⟩, ⟨.error, contactMissingMsg, 1⟩] :=
  ⟨by decide, by decide, by rfl⟩

/-- Claim C3 (amended): the author and contact flags are reset for each
settings table and the two findings are reported once per settings
table, not once per document: for each settings table, one
author-missing finding when none of its cells contains an author
token, and one contact-missing finding when none contains a contact
token, both at line 1; a table whose only cell is
Modified: 1/1/2020 Jane Doe yields exactly the contact finding. -/
theorem C3_author_contact_amended (s : Suite) (tl rl : Nat) :
    RequiredAutherInfo_apply s
      = (s.tables.filter (fun t => t.isSetting)).flatMap authorContactTableSpec ∧
    RequiredAutherInfo_apply
        ⟨[], [], [⟨true, lit "Settings", tl, [⟨[lit "Modified: 1/1/2020 Jane Doe"], rl⟩]⟩], [], []⟩
      = [⟨.error, contactMissingMsg, 1⟩] := by
  constructor
  · unfold RequiredAutherInfo_apply
    rw [show authorTableCheck = authorContactTableSpec from funext authorTableCheck_eq]
  · rfl

theorem tableLacks_eq (tokens : List Str) (t : Table) :
    tableLacks tokens t = !rowsHaveToken tokens t.rows := by
  cases hb : rowsHaveToken tokens t.rows
  · simp only [tableLacks, Bool.not_false, decide_eq_true_eq]
    intro hx
    rw [(rowsHaveToken_iff tokens t.rows).mpr hx] at hb
    cases hb
  · simp only [tableLacks, Bool.not_true, decide_eq_false_iff_not, not_not]
    exact (rowsHaveToken_iff tokens t.rows).mp hb

theorem author_count (ts : List Table) :
    (ts.flatMap authorTableCheck).countP (fun v => v == ⟨.error, authorMissingMsg, 1⟩)
      = (ts.filter (tableLacks authorTokens)).length := by
  induction ts with
  | nil => rfl
  | cons t ts ih =>
    have hne : contactMissingMsg ≠ authorMissingMsg := by decide
    rw [List.flatMap_cons, List.countP_append, ih, List.filter_cons, tableLacks_eq]
    cases ha : rowsHaveToken authorTokens t.rows <;>
      cases hc : rowsHaveToken contactTokens t.rows <;>
        simp [authorTableCheck, ha, hc, List.countP_cons, hne] <;> omega

theorem contact_count (ts : List Table) :
    (ts.flatMap authorTableCheck).countP (fun v => v == ⟨.error, contactMissingMsg, 1⟩)
      = (ts.filter (tableLacks contactTokens)).length := by
  induction ts with
  | nil => rfl
  | cons t ts ih =>
    have hne : authorMissingMsg ≠ contactMissingMsg := by decide
    rw [List.flatMap_cons, List.countP_append, ih, List.filter_cons, tableLacks_eq]
    cases ha : rowsHaveToken authorTokens t.rows <;>
      cases hc : rowsHaveToken contactTokens t.rows <;>
        simp [authorTableCheck, ha, hc, List.countP_cons, hne] <;> omega

theorem author_line1 (ts : List Table) :
    ∀ v ∈ ts.flatMap authorTableCheck, v.linenumber = 1 := by
  intro v hv
  rw [List.mem_flatMap] at hv
  rcases hv with ⟨t, _, hv⟩
  unfold authorTableCheck at hv
  rw [List.mem_append] at hv
  rcases hv with hv | hv <;>
    [cases hb : rowsHaveToken authorTokens t.rows;
     cases hb : rowsHaveToken contactTokens t.rows] <;>
    rw [hb] at hv <;> simp at hv <;> simp [hv]

/-- Claim C10: the author/contact rule is per settings table: a
document with no settings table yields no finding; otherwise the rule
yields exactly one author-missing finding for every settings table
none of whose cells contains an author token, and one contact-missing
finding for every settings table none of whose cells contains a
contact token, every finding anchored at line 1. -/
theorem C10_author_per_table (s : Suite) :
    ((s.tables.filter (fun t => t.isSetting)) = [] → RequiredAutherInfo_apply s = []) ∧
    (RequiredAutherInfo_apply s).countP (fun v => v == ⟨.error, authorMissingMsg, 1⟩)
      = ((s.tables.filter (fun t => t.isSetting)).filter (tableLacks authorTokens)).length ∧
    (RequiredAutherInfo_apply s).countP (fun v => v == ⟨.error, contactMissingMsg, 1⟩)
      = ((s.tables.filter (fun t => t.isSetting)).filter (tableLacks contactTokens)).length ∧
    ∀ v ∈ RequiredAutherInfo_apply s, v.linenumber = 1 := by
  refine ⟨?_, author_count _, contact_count _, author_line1 _⟩
  intro h
  unfold RequiredAutherInfo_apply
  rw [h]
  rfl

/-- Witness for Claim C10 on a document without settings tables. -/
theorem C10_witness : RequiredAutherInfo_apply noSettingsDoc = [] :=
  (C10_author_per_table noSettingsDoc).1 (by rfl)

theorem findFirstCellLower_eq (target : Str) (rows : List Row)
    (h : ∀ r ∈ rows, r.cells ≠ []) :
    findFirstCellLower target rows
      = .ok (rows.any (fun r => r.cells.head?.map pyLower == some target)) := by
  induction rows with
  | nil => rfl
  | cons r rs ih =>
    have hr : r.cells ≠ [] := h r (List.mem_cons_self r rs)
    match hc : r.cells with
    | [] => exact absurd hc hr
    | c :: cs =>
      simp only [findFirstCellLower, hc, List.any_cons, List.head?_cons, Option.map_some']
      by_cases hpc : pyLower c = target
      · rw [if_pos hpc]
        simp [hpc]
      · rw [if_neg hpc, ih (fun r hrr => h r (List.mem_cons_of_mem _ hrr))]
        simp [hpc]

theorem scanSettingFirstCells_eq (target : Str) (tables : List Table)
    (h : ∀ t ∈ tables, t.isSetting = true → ∀ r ∈ t.rows, r.cells ≠ []) :
    scanSettingFirstCells target tables
      = .ok (tables.any (fun t => t.isSetting && t.rows.any
          (fun r => r.cells.head?.map pyLower == some target))) := by
  induction tables with
  | nil => rfl
  | cons t ts ih =>
    have ihts := ih (fun u hu => h u (List.mem_cons_of_mem _ hu))
    rw [scanSettingFirstCells, List.any_cons]
    by_cases hs : t.isSetting = true
    · rw [if_pos hs, findFirstCellLower_eq target t.rows (h t (List.mem_cons_self t ts) hs)]
      cases hb : t.rows.any (fun r => r.cells.head?.map pyLower == some target)
      · rw [ihts]; simp [hs, hb]
      · simp [hs, hb]
    · have hs0 : t.isSetting = false := by revert hs; cases t.isSetting <;> simp
      rw [if_neg hs, ihts]
      simp [hs0]

theorem hasFirstCellRow_iff (target : Str) (s : Suite) :
    hasFirstCellRow target s ↔
      s.tables.any (fun t => t.isSetting && t.rows.any
        (fun r => r.cells.head?.map pyLower == some target)) = true := by
  simp [hasFirstCellRow, List.any_eq_true]

theorem firstSettingLinenum_eq (tables : List Table) :
    firstSettingLinenum tables
      = (tables.find? (fun t => t.isSetting)).elim 1 (fun t => t.linenumber + 1) := by
  induction tables with
  | nil => rfl
  | cons t ts ih =>
    by_cases hs : t.isSetting = true
    · rw [firstSettingLinenum, if_pos hs, List.find?_cons_of_pos _ hs]
      rfl
    · have hs0 : t.isSetting = false := by revert hs; cases t.isSetting <;> simp
      rw [firstSettingLinenum, if_neg hs, List.find?_cons_of_neg _ (by simp [hs0]), ih]

/-- Claim C4: the suite-documentation rule reports nothing when some
settings-table row has documentation (case-insensitively) as its first
cell; otherwise it reports exactly one finding, one line below the
first settings-table header, or at line 1 when the document has no
settings table. -/
theorem C4_suite_documentation (s : Suite)
    (hwf : ∀ t ∈ s.tables, t.isSetting = true → ∀ r ∈ t.rows, r.cells ≠ []) :
    (hasFirstCellRow (lit "documentation") s →
      RequireSuiteDocumentation_apply s = .ok []) ∧
    (¬ hasFirstCellRow (lit "documentation") s →
      RequireSuiteDocumentation_apply s
        = .ok [⟨.warning, lit "No suite documentation",
            (s.tables.find? (fun t => t.isSetting)).elim 1 (fun t => t.linenumber + 1)⟩]) := by
  unfold RequireSuiteDocumentation_apply
  rw [scanSettingFirstCells_eq _ _ hwf]
  constructor
  · intro hd
    rw [(hasFirstCellRow_iff _ s).mp hd]
  · intro hd
    have hb : s.tables.any (fun t => t.isSetting && t.rows.any
        (fun r => r.cells.head?.map pyLower == some (lit "documentation"))) = false := by
      cases hx : s.tables.any (fun t => t.isSetting && t.rows.any
          (fun r => r.cells.head?.map pyLower == some (lit "documentation")))
      · rfl
      · exact absurd ((hasFirstCellRow_iff _ s).mpr hx) hd
    rw [hb, firstSettingLinenum_eq]

/-- Witness for Claim C4: one settings table at line 5 whose only row
imports a library; the single finding is anchored at line 6. -/
theorem C4_witness :
    RequireSuiteDocumentation_apply docWitnessDoc
      = .ok [⟨.warning, lit "No suite documentation", 6⟩] :=
  (C4_suite_documentation docWitnessDoc (by decide)).2 (by decide)

/-- Claim C2: the too-many-test-cases rule is silent when a settings
row declares a test template (case-insensitively); otherwise it
reports exactly one finding when the test-case count strictly exceeds
the threshold, anchored at the test case at index `max_allowed` and
carrying both counts in its message, and reports nothing when the
count is within the threshold. -/
theorem C2_too_many (m : Nat) (s : Suite)
    (hwf : ∀ t ∈ s.tables, t.isSetting = true → ∀ r ∈ t.rows, r.cells ≠ []) :
    (hasFirstCellRow (lit "test template") s → TooManyTestCases_apply m s = .ok []) ∧
    (¬ hasFirstCellRow (lit "test template") s →
      (∀ h : m < s.testcases.length,
        TooManyTestCases_apply m s
          = .ok [⟨.warning, tooManyMsg s.testcases.length m,
                (s.testcases.get ⟨m, h⟩).linenumber⟩] ∧
        natStr s.testcases.length <:+: tooManyMsg s.testcases.length m ∧
        natStr m <:+: tooManyMsg s.testcases.length m) ∧
      (s.testcases.length ≤ m → TooManyTestCases_apply m s = .ok [])) := by
  unfold TooManyTestCases_apply
  rw [scanSettingFirstCells_eq _ _ hwf]
  constructor
  · intro hd
    rw [(hasFirstCellRow_iff _ s).mp hd]
  · intro hd
    have hb : s.tables.any (fun t => t.isSetting && t.rows.any
        (fun r => r.cells.head?.map pyLower == some (lit "test template"))) = false := by
      cases hx : s.tables.any (fun t => t.isSetting && t.rows.any
          (fun r => r.cells.head?.map pyLower == some (lit "test template")))
      · rfl
      · exact absurd ((hasFirstCellRow_iff _ s).mpr hx) hd
    rw [hb]
    constructor
    · intro h
      rw [dif_pos h]
      refine ⟨rfl, ?_, ?_⟩
      · exact ⟨lit "Too many test cases (",
          lit " > " ++ natStr m ++ lit ") in test suite",
          by simp [tooManyMsg, List.append_assoc]⟩
      · exact ⟨lit "Too many test cases (" ++ natStr s.testcases.length ++ lit " > ",
          lit ") in test suite",
          by simp [tooManyMsg, List.append_assoc]⟩
    · intro h
      rw [dif_neg (by omega)]

/-- Witness for Claim C2: eleven test cases, threshold ten, no
template row: one finding with both counts, anchored at the line of
the eleventh test case. -/
theorem C2_witness :
    TooManyTestCases_apply 10 tooManyWitnessDoc = .ok [⟨.warning, tooManyMsg 11 10, 110⟩] ∧
    natStr 11 <:+: tooManyMsg 11 10 ∧
    natStr 10 <:+: tooManyMsg 11 10 :=
  ((C2_too_many 10 tooManyWitnessDoc (by decide)).2 (by decide)).1 (by decide)

theorem exceptRows_cons (f : Row → Except Unit (List Violation)) (r : Row) (rs : List Row) :
    exceptRows f (r :: rs)
      = Except.bind (f r) (fun v =>
          Except.bind (exceptRows f rs) (fun vs => .ok (v ++ vs))) := rfl

theorem checkRowCurdir_eq (r : Row)
    (h1 : r.cells ≠ [])
    (h2 : r.cells.head? = some (lit "Resource") → 2 ≤ r.cells.length) :
    checkRowCurdir r = .ok ((curdirRowSpec r).elim [] (fun v => [v])) := by
  match hc : r.cells with
  | [] => exact absurd hc h1
  | [c0] =>
    have hne : c0 ≠ lit "Resource" := by
      intro e
      have h3 := h2 (by rw [hc, e]; rfl)
      rw [hc] at h3
      simp at h3
    simp only [checkRowCurdir, curdirRowSpec, hc]
    rw [if_neg hne]
    rfl
  | c0 :: c1 :: rest =>
    simp only [checkRowCurdir, curdirRowSpec, hc]
    by_cases he : c0 = lit "Resource"
    · rw [if_pos he]
      by_cases hcon : strContains curdirToken c1 = true
      · rw [if_pos hcon, if_pos ⟨he, hcon⟩]
        rfl
      · rw [if_neg hcon, if_neg (fun hx => hcon hx.2)]
        rfl
    · rw [if_neg he, if_neg (fun hx => he hx.1)]
      rfl

theorem exceptRows_curdir (rows : List Row)
    (h : ∀ r ∈ rows, r.cells ≠ [] ∧
        (r.cells.head? = some (lit "Resource") → 2 ≤ r.cells.length)) :
    exceptRows checkRowCurdir rows = .ok (rows.filterMap curdirRowSpec) := by
  induction rows with
  | nil => rfl
  | cons r rs ih =>
    obtain ⟨h1, h2⟩ := h r (List.mem_cons_self r rs)
    have ihrs := ih (fun u hu => h u (List.mem_cons_of_mem _ hu))
    rw [exceptRows_cons, checkRowCurdir_eq r h1 h2, ihrs, List.filterMap_cons]
    cases hs : curdirRowSpec r <;> simp [Except.bind]

theorem curdirTables_eq (tables : List Table)
    (h : ∀ t ∈ tables, t.isSetting = true → ∀ r ∈ t.rows,
        r.cells ≠ [] ∧ (r.cells.head? = some (lit "Resource") → 2 ≤ r.cells.length)) :
    curdirTables tables
      = .ok ((tables.filter (fun t => t.isSetting)).flatMap
          (fun t => t.rows.filterMap curdirRowSpec)) := by
  induction tables with
  | nil => rfl
  | cons t ts ih =>
    have ihts := ih (fun u hu => h u (List.mem_cons_of_mem _ hu))
    by_cases hs : t.isSetting = true
    · simp only [curdirTables]
      rw [if_pos hs]
      rw [show (do
            let v ← exceptRows checkRowCurdir t.rows
            let vs ← curdirTables ts
            return v ++ vs : Except Unit (List Violation))
          = Except.bind (exceptRows checkRowCurdir t.rows) (fun v =>
              Except.bind (curdirTables ts) (fun vs => .ok (v ++ vs))) from rfl]
      rw [exceptRows_curdir t.rows (h t (List.mem_cons_self t ts) hs), ihts]
      simp [hs, Except.bind]
    · have hs0 : t.isSetting = false := by revert hs; cases t.isSetting <;> simp
      simp only [curdirTables]
      rw [if_neg hs, ihts]
      simp [hs0]

/-- Claim C6: under the row shapes the rule can traverse, the
no-curdir rule reports, for exactly the settings-table rows whose
first cell equals Resource case-sensitively and whose second cell
contains the current-directory placeholder, one finding at that row
line; all other rows, including rows whose first cell differs only by
case, contribute nothing. -/
theorem C6_no_curdir (s : Suite)
    (h : ∀ t ∈ s.tables, t.isSetting = true → ∀ r ∈ t.rows,
        r.cells ≠ [] ∧ (r.cells.head? = some (lit "Resource") → 2 ≤ r.cells.length)) :
    RequirdNoCurdirInImporting_apply s
      = .ok ((s.tables.filter (fun t => t.isSetting)).flatMap
          (fun t => t.rows.filterMap curdirRowSpec)) :=
  curdirTables_eq s.tables h

/-- Witness for Claim C6: of the three rows of `curdirWitnessDoc`,
only the Resource row with the placeholder is reported, at line 2; the
lowercase resource row is skipped. -/
theorem C6_witness :
    RequirdNoCurdirInImporting_apply curdirWitnessDoc
      = .ok [⟨.error, curdirMsg, 2⟩] :=
  C6_no_curdir curdirWitnessDoc (by decide)

/-- Claim C9: the row-indexing rules never reach the IndexError branch
on documents whose settings-table rows all have a first cell and whose
Resource rows also have a second cell; on a settings-table row that is
just the single cell Resource, the no-curdir rule raises instead of
reporting or passing. -/
theorem C9_index_safety :
    (∀ (m : Nat) (s : Suite),
      (∀ t ∈ s.tables, t.isSetting = true → ∀ r ∈ t.rows, r.cells ≠ []) →
      (∀ t ∈ s.tables, t.isSetting = true → ∀ r ∈ t.rows,
          r.cells.head? = some (lit "Resource") → 2 ≤ r.cells.length) →
      (RequirdNoCurdirInImporting_apply s).isOk = true ∧
      (RequireSuiteDocumentation_apply s).isOk = true ∧
      (TooManyTestCases_apply m s).isOk = true) ∧
    RequirdNoCurdirInImporting_apply resourceOnlyDoc = .error () := by
  constructor
  · intro m s h1 h2
    refine ⟨?_, ?_, ?_⟩
    · show (curdirTables s.tables).isOk = true
      rw [curdirTables_eq s.tables (fun t ht hs r hr => ⟨h1 t ht hs r hr, h2 t ht hs r hr⟩)]
      rfl
    · unfold RequireSuiteDocumentation_apply
      rw [scanSettingFirstCells_eq _ _ h1]
      cases hb : s.tables.any (fun t => t.isSetting && t.rows.any
          (fun r => r.cells.head?.map pyLower == some (lit "documentation"))) <;> rfl
    · unfold TooManyTestCases_apply
      rw [scanSettingFirstCells_eq _ _ h1]
      cases hb : s.tables.any (fun t => t.isSetting && t.rows.any
          (fun r => r.cells.head?.map pyLower == some (lit "test template")))
      · by_cases hlt : m < s.testcases.length
        · rw [dif_pos hlt]
          rfl
        · rw [dif_neg hlt]
          rfl
      · rfl
  · rfl

/-- Witness for Claim C9 on a well-formed document: all three indexing
rules succeed. -/
theorem C9_witness :
    (RequirdNoCurdirInImporting_apply curdirWitnessDoc).isOk = true ∧
    (RequireSuiteDocumentation_apply curdirWitnessDoc).isOk = true ∧
    (TooManyTestCases_apply 10 curdirWitnessDoc).isOk = true :=
  C9_index_safety.1 10 curdirWitnessDoc (by decide) (by decide)

theorem refull_iff (r : RE) : ∀ (s : Str) (k : Str → Bool),
    REfull r s k = true ↔ ∃ p q, s = p ++ q ∧ pyLower p ∈ lang r ∧ k q = true := by
  induction r with
  | eps =>
    intro s k
    constructor
    · intro h
      exact ⟨[], s, rfl, by simp [lang, pyLower], h⟩
    · rintro ⟨p, q, rfl, hp, hq⟩
      have hp0 : p = [] := by simpa [lang, pyLower] using hp
      subst hp0
      simpa using hq
  | chr c =>
    intro s k
    cases s with
    | nil =>
      constructor
      · intro h
        simp [REfull] at h
      · rintro ⟨p, q, hpq, hp, hq⟩
        rcases p with _ | ⟨y, ys⟩
        · simp [lang, pyLower] at hp
        · simp at hpq
    | cons x xs =>
      constructor
      · intro h
        simp only [REfull, Bool.and_eq_true, beq_iff_eq] at h
        exact ⟨[x], xs, rfl, by simp [lang, pyLower, h.1], h.2⟩
      · rintro ⟨p, q, hpq, hp, hq⟩
        rcases p with _ | ⟨y, ys⟩
        · simp [lang, pyLower] at hp
        · simp only [lang, List.mem_singleton, pyLower, List.map_cons] at hp
          have hy : Char.toLower y = c ∧ ys.map Char.toLower = [] := by
            simpa using hp
          have hys : ys = [] := by simpa using hy.2
          subst hys
          have hx : x = y ∧ xs = q := by simpa using hpq
          simp only [REfull, Bool.and_eq_true, beq_iff_eq]
          exact ⟨by rw [hx.1, hy.1], by rw [hx.2]; exact hq⟩
  | seq a b iha ihb =>
    intro s k
    simp only [REfull]
    rw [iha]
    constructor
    · rintro ⟨p1, q1, rfl, hp1, hb1⟩
      rw [ihb] at hb1
      rcases hb1 with ⟨p2, q2, rfl, hp2, hk⟩
      refine ⟨p1 ++ p2, q2, by rw [List.append_assoc], ?_, hk⟩
      simp only [lang, List.mem_flatMap, List.mem_map]
      exact ⟨pyLower p1, hp1, pyLower p2, hp2, by simp [pyLower]⟩
    · rintro ⟨p, q, rfl, hp, hk⟩
      simp only [lang, List.mem_flatMap, List.mem_map] at hp
      rcases hp with ⟨u, hu, v, hv, huv⟩
      rcases List.map_eq_append_iff.mp
          (show p.map Char.toLower = u ++ v from huv.symm) with ⟨p1, p2, rfl, h1, h2⟩
      refine ⟨p1, p2 ++ q, by rw [List.append_assoc], ?_, ?_⟩
      · show p1.map Char.toLower ∈ lang a
        rw [h1]
        exact hu
      · rw [ihb]
        refine ⟨p2, q, rfl, ?_, hk⟩
        show p2.map Char.toLower ∈ lang b
        rw [h2]
        exact hv
  | alt a b iha ihb =>
    intro s k
    simp only [REfull, Bool.or_eq_true]
    rw [iha, ihb]
    constructor
    · rintro (⟨p, q, rfl, hp, hk⟩ | ⟨p, q, rfl, hp, hk⟩)
      · exact ⟨p, q, rfl, show pyLower p ∈ lang a ++ lang b from List.mem_append.mpr (Or.inl hp), hk⟩
      · exact ⟨p, q, rfl, show pyLower p ∈ lang a ++ lang b from List.mem_append.mpr (Or.inr hp), hk⟩
    · rintro ⟨p, q, rfl, hp, hk⟩
      rcases List.mem_append.mp (show pyLower p ∈ lang a ++ lang b from hp) with h | h
      · exact Or.inl ⟨p, q, rfl, h, hk⟩
      · exact Or.inr ⟨p, q, rfl, h, hk⟩
  | opt a ih =>
    intro s k
    simp only [REfull, Bool.or_eq_true]
    rw [ih]
    constructor
    · rintro (hk | ⟨p, q, rfl, hp, hk⟩)
      · exact ⟨[], s, rfl, show ([] : Str) ∈ [] :: lang a from List.mem_cons_self _ _, hk⟩
      · exact ⟨p, q, rfl, show pyLower p ∈ [] :: lang a from List.mem_cons_of_mem _ hp, hk⟩
    · rintro ⟨p, q, rfl, hp, hk⟩
      rcases List.mem_cons.mp (show pyLower p ∈ [] :: lang a from hp) with h | h
      · left
        have hp0 : p = [] := by simpa [pyLower] using h
        subst hp0
        simpa using hk
      · right
        exact ⟨p, q, rfl, h, hk⟩

theorem reMatches_iff (r : RE) (s : Str) :
    reMatches r s = true ↔ pyLower s ∈ lang r := by
  unfold reMatches
  rw [refull_iff]
  constructor
  · rintro ⟨p, q, rfl, hp, hq⟩
    have hq0 : q = [] := by simpa using hq
    subst hq0
    simpa using hp
  · intro h
    exact ⟨s, [], by simp, h, by simp⟩

theorem lang_tablePattern : lang tablePattern = recognizedHeaders := by rfl

theorem reMatches_header (x : Str) :
    reMatches tablePattern x = true ↔ pyLower x ∈ recognizedHeaders := by
  rw [reMatches_iff, lang_tablePattern]

theorem invalidTable_cell (t : Table) :
    (if reMatches tablePattern t.name then ([] : List Violation)
      else [⟨.warning, invalidTableMsg t.name, t.linenumber⟩])
      = (if pyLower t.name ∈ recognizedHeaders then []
          else [⟨.warning, invalidTableMsg t.name, t.linenumber⟩]) := by
  by_cases h : pyLower t.name ∈ recognizedHeaders
  · rw [if_pos ((reMatches_header t.name).mpr h), if_pos h]
  · rw [if_neg (fun hb => h ((reMatches_header t.name).mp hb)), if_neg h]

/-- Claim C5: a table is reported, at its own header line, exactly
when its raw header does not match, case-insensitively, one of the
thirteen recognized header forms; the headers Setting, Test Cases and
Keywords pass while Configuration is reported. -/
theorem C5_invalid_table (s : Suite) (p n : Str) (l1 l2 l3 l4 : Nat) :
    InvalidTable_apply s = s.tables.flatMap (fun t =>
        if pyLower t.name ∈ recognizedHeaders then []
        else [⟨.warning, invalidTableMsg t.name, t.linenumber⟩]) ∧
    InvalidTable_apply ⟨p, n,
        [⟨false, lit "Setting", l1, []⟩, ⟨false, lit "Test Cases", l2, []⟩,
         ⟨false, lit "Keywords", l3, []⟩], [], []⟩ = [] ∧
    InvalidTable_apply ⟨p, n, [⟨false, lit "Configuration", l4, []⟩], [], []⟩
      = [⟨.warning, invalidTableMsg (lit "Configuration"), l4⟩] := by
  refine ⟨?_, by rfl, by rfl⟩
  unfold InvalidTable_apply
  exact congrArg s.tables.flatMap (funext invalidTable_cell)
